import Mathlib

/-!
Shallow embedding of the PM2.5 statistics pipeline (`src/stats.py` and the
acquisition pipeline exercised by `src/tests/test_get_data.py`).

Dataframes are embedded as lists of typed rows.  Measured values are `Option ℚ`
(`none` plays the role of NaN: pandas aggregation skips NaN, comparison with
NaN is `False`).  The pandas primitives used by the code — `groupby` +
aggregation, `filter`, `stack`, `nunique`, `nlargest` / `nsmallest`,
`sort_values` — are modelled once, generically, below, and each Python
function of `stats.py` is a composition of these models, mirroring its source
line by line.
-/

namespace PM25

/-- Timestamp, as far as the code observes it (`dt.year`, `dt.month`,
`dt.date`); the sub-day part only distinguishes rows within a date. -/
structure Datetime where
  year : Int
  month : Int
  day : Int
  hour : Int
  deriving DecidableEq, Repr

/-- Calendar date, the value of `Series.dt.date`. -/
structure Date where
  year : Int
  month : Int
  day : Int
  deriving DecidableEq, Repr

/-- The `dt.date` accessor. -/
def Datetime.date (t : Datetime) : Date :=
  ⟨t.year, t.month, t.day⟩

/-- A raw cell of the wide spreadsheet: a number, a textual value, or a
missing measurement (NaN). -/
inductive RawCell where
  | num (q : ℚ)
  | str (s : String)
  | missing
  deriving DecidableEq, Repr

/-- Wide-format frame: a `("datetime", "")` column plus one column per
`(Miejscowość, Kod stacji)` header pair; each data row holds a timestamp and
one cell per station column. -/
structure WideFrame where
  stations : List (String × String)
  rows : List (Datetime × List RawCell)

/-- A row of the long (tidy) format produced by `convert_df`:
columns `datetime`, `Miejscowość`, `Kod stacji`, `PM25`. -/
structure LongRow where
  datetime : Datetime
  city : String
  station : String
  pm25 : Option ℚ
  deriving DecidableEq, Repr

/-- Value of a decimal digit character. -/
def digitsToNat (cs : List Char) : Nat :=
  cs.foldl (fun n c => n * 10 + (c.toNat - 48)) 0

/-- Model of `pd.to_numeric(…, errors="coerce")` on a single string: parse an
optional sign, an integer part and an optional fractional part; anything else
coerces to NaN (`none`). -/
def parseDecimal (s : String) : Option ℚ :=
  let cs := s.toList
  let sign : ℚ × List Char :=
    match cs with
    | '-' :: rest => (-1, rest)
    | '+' :: rest => (1, rest)
    | _ => (1, cs)
  let intPart := sign.2.takeWhile (fun c => c.isDigit)
  let rest := sign.2.dropWhile (fun c => c.isDigit)
  match rest with
  | [] =>
    if intPart.isEmpty then none
    else some (sign.1 * (digitsToNat intPart : ℚ))
  | '.' :: frac =>
    if frac.all (fun c => c.isDigit) && !(intPart.isEmpty && frac.isEmpty) then
      some (sign.1 * ((digitsToNat intPart : ℚ)
        + (digitsToNat frac : ℚ) / (10 : ℚ) ^ frac.length))
    else none
  | _ => none

/-- Model of `.str.strip()`: drop surrounding whitespace. -/
def stripStr (s : String) : String :=
  String.mk (((s.toList.dropWhile Char.isWhitespace).reverse.dropWhile
    Char.isWhitespace).reverse)

/-- Model of `.str.replace(",", ".", regex=False)`: both pattern and
replacement are single characters, so the replacement is character-wise. -/
def commaToDot (s : String) : String :=
  String.mk (s.toList.map (fun c => if c = ',' then '.' else c))

/-- Lines 24–28 of `stats.py` applied to one cell: `astype(str)`,
`.str.strip()`, `.str.replace(",", ".")`, `pd.to_numeric(errors="coerce")`.
A numeric cell round-trips through its string form unchanged; a missing cell
prints as `"nan"`, which coerces back to NaN. -/
def cleanCell : RawCell → Option ℚ
  | RawCell.num q => some q
  | RawCell.str s => parseDecimal (commaToDot (stripStr s))
  | RawCell.missing => none

/-- Lines 16–21 of `stats.py`: `set_index(("datetime",""))` followed by
`stack(["Miejscowość", "Kod stacji"])` and `reset_index()`.  Classic
(pre-`future_stack`) pandas `stack` drops cells that are NaN, so missing
cells produce no row. -/
def stack_cells (w : WideFrame) : List (Datetime × String × String × RawCell) :=
  w.rows.flatMap (fun p =>
    (w.stations.zip p.2).filterMap (fun sc =>
      match sc.2 with
      | RawCell.missing => none
      | v => some (p.1, sc.1.1, sc.1.2, v)))

/-- Line 23 of `stats.py`: `formated.columns = ["datetime", "Miejscowość",
"Kod stacji", "PM25"]`. -/
def convert_df_columns : List String :=
  ["datetime", "Miejscowość", "Kod stacji", "PM25"]

/-- `stats.convert_df`: wide-to-long reshape followed by cleaning of the
`PM25` column. -/
def convert_df (w : WideFrame) : List LongRow :=
  (stack_cells w).map (fun r =>
    { datetime := r.1, city := r.2.1, station := r.2.2.1, pm25 := cleanCell r.2.2.2 })

/-! ### Generic groupby machinery (model of `DataFrame.groupby(...).agg(...)`) -/

/-- The distinct group keys occurring in `l` under the key function `f`. -/
def gkeys {α κ : Type} [DecidableEq κ] (f : α → κ) (l : List α) : List κ :=
  (l.map f).dedup

/-- The rows of `l` belonging to the group with key `k`. -/
def grp {α κ : Type} [DecidableEq κ] (f : α → κ) (l : List α) (k : κ) : List α :=
  l.filter (fun a => decide (f a = k))

/-- `groupby(f).agg(g)`: one output row per occurring key, carrying the
aggregate of that key's group. -/
def groupedBy {α β κ : Type} [DecidableEq κ] (f : α → κ) (g : List α → β)
    (l : List α) : List (κ × β) :=
  (gkeys f l).map (fun k => (k, g (grp f l k)))

/-- Arithmetic mean of a list of rationals (`0` on the empty list, which the
development only uses under a nonemptiness hypothesis). -/
def meanQ (vs : List ℚ) : ℚ :=
  vs.sum / (vs.length : ℚ)

/-- Pandas `mean()` over a column with NaN: skip the NaN entries, and return
NaN when nothing remains. -/
def meanOpt (vs : List (Option ℚ)) : Option ℚ :=
  let ws := vs.filterMap id
  if ws.isEmpty then none else some (meanQ ws)

/-- Pandas `series > t` on an `Option` value: NaN compares `False`. -/
def optGT (o : Option ℚ) (t : ℚ) : Bool :=
  match o with
  | some q => decide (t < q)
  | none => false

theorem mem_gkeys {α κ : Type} [DecidableEq κ] (f : α → κ) (l : List α) (k : κ) :
    k ∈ gkeys f l ↔ ∃ a ∈ l, f a = k := by
  simp [gkeys, List.mem_dedup]

theorem nodup_gkeys {α κ : Type} [DecidableEq κ] (f : α → κ) (l : List α) :
    (gkeys f l).Nodup :=
  List.nodup_dedup _

theorem groupedBy_map_fst {α β κ : Type} [DecidableEq κ] (f : α → κ)
    (g : List α → β) (l : List α) :
    (groupedBy f g l).map Prod.fst = gkeys f l := by
  simp [groupedBy, Function.comp_def]

/-- Filtering a keyed list built over nodup keys at a key that occurs picks
out exactly that key's entry. -/
theorem filter_map_keys_eq {β κ : Type} [DecidableEq κ] (h : κ → β)
    (ks : List κ) (hnd : ks.Nodup) (k : κ) (hk : k ∈ ks) :
    (ks.map (fun x => (x, h x))).filter (fun p => decide (p.1 = k)) = [(k, h k)] := by
  induction ks with
  | nil => cases hk
  | cons a t ih =>
    rcases List.nodup_cons.mp hnd with ⟨ha, hndt⟩
    rcases List.mem_cons.mp hk with rfl | hk
    · have hnil : (t.map (fun x => (x, h x))).filter (fun p => decide (p.1 = k)) = [] := by
        apply List.filter_eq_nil_iff.mpr
        intro p hp
        rcases List.mem_map.mp hp with ⟨x, hx, rfl⟩
        simp only [decide_eq_true_eq]
        intro e
        exact ha (e ▸ hx)
      simp [List.filter_cons, hnil]
    · have hne : a ≠ k := fun e => ha (e ▸ hk)
      simp [List.filter_cons, hne, ih hndt hk]

theorem groupedBy_filter_eq {α β κ : Type} [DecidableEq κ] (f : α → κ)
    (g : List α → β) (l : List α) (k : κ) (hk : k ∈ gkeys f l) :
    (groupedBy f g l).filter (fun p => decide (p.1 = k)) = [(k, g (grp f l k))] :=
  filter_map_keys_eq (fun x => g (grp f l x)) (gkeys f l) (nodup_gkeys f l) k hk

/-! ### The aggregation functions of `stats.py` -/

/-- A row of the station-level monthly means frame: columns `Rok`, `Miesiąc`,
`Miejscowość`, `Kod stacji`, `Mean PM25`. -/
structure MonthlyRow where
  rok : Int
  miesiac : Int
  city : String
  station : String
  mean : Option ℚ
  deriving DecidableEq, Repr

/-- Grouping key of `calc_monthly_means` (lines 47–52 of `stats.py`):
`dt.year`, `dt.month`, `Miejscowość`, `Kod stacji`. -/
def monthlyKey (r : LongRow) : Int × Int × String × String :=
  (r.datetime.year, r.datetime.month, r.city, r.station)

/-- Key carried by a row of the monthly-means output. -/
def monthlyRowKey (r : MonthlyRow) : Int × Int × String × String :=
  (r.rok, r.miesiac, r.city, r.station)

/-- `stats.calc_monthly_means`: group the long frame by (year, month, city,
station) and take the mean of `PM25` in each group. -/
def calc_monthly_means (l : List LongRow) : List MonthlyRow :=
  (groupedBy monthlyKey (fun g => meanOpt (g.map LongRow.pm25)) l).map
    (fun p => { rok := p.1.1, miesiac := p.1.2.1, city := p.1.2.2.1,
                station := p.1.2.2.2, mean := p.2 })

/-- A row of the city-level monthly means frame: columns `Rok`, `Miesiąc`,
`Miejscowość`, `Mean PM25`. -/
structure CityRow where
  rok : Int
  miesiac : Int
  city : String
  mean : Option ℚ
  deriving DecidableEq, Repr

/-- Grouping key of `calc_monthly_city_means` (line 70 of `stats.py`). -/
def cityKey (r : MonthlyRow) : Int × Int × String :=
  (r.rok, r.miesiac, r.city)

/-- Key carried by a row of the city means output. -/
def cityRowKey (r : CityRow) : Int × Int × String :=
  (r.rok, r.miesiac, r.city)

/-- `stats.calc_monthly_city_means`: group the station monthly means by
(year, month, city) and take the mean of `Mean PM25` in each group.  The
`pd.to_numeric(…, errors="coerce")` on line 67 is the identity on a column
that is already numeric-or-NaN. -/
def calc_monthly_city_means (mm : List MonthlyRow) : List CityRow :=
  (groupedBy cityKey (fun g => meanOpt (g.map MonthlyRow.mean)) mm).map
    (fun p => { rok := p.1.1, miesiac := p.1.2.1, city := p.1.2.2, mean := p.2 })

/-- A row of the daily means frame: columns `Rok`, `Data`, `Miejscowość`,
`Kod stacji`, `Daily mean PM25`. -/
structure DailyRow where
  rok : Int
  data : Date
  city : String
  station : String
  dmean : Option ℚ
  deriving DecidableEq, Repr

/-- Grouping key of `calc_daily_means` (lines 90–95 of `stats.py`):
`dt.year`, `dt.date`, `Miejscowość`, `Kod stacji`. -/
def dailyKey (r : LongRow) : Int × Date × String × String :=
  (r.datetime.year, r.datetime.date, r.city, r.station)

/-- `stats.calc_daily_means`: group the long frame by (year, date, city,
station) and take the mean of `PM25` in each group. -/
def calc_daily_means (l : List LongRow) : List DailyRow :=
  (groupedBy dailyKey (fun g => meanOpt (g.map LongRow.pm25)) l).map
    (fun p => { rok := p.1.1, data := p.1.2.1, city := p.1.2.2.1,
                station := p.1.2.2.2, dmean := p.2 })

/-- A row of the exceedance-count frame produced by `count_overnorm_days`:
columns `Rok`, `Kod stacji`, `Liczba dni PM25 > threshold`. -/
structure OverRow where
  rok : Int
  station : String
  days : Nat
  deriving DecidableEq, Repr

/-- Line 114 of `stats.py`: the daily rows whose mean is strictly above the
threshold (NaN compares `False`). -/
def exceedRows (daily : List DailyRow) (t : ℚ) : List DailyRow :=
  daily.filter (fun r => optGT r.dmean t)

/-- Grouping key of `count_overnorm_days` (line 117 of `stats.py`). -/
def overKey (r : DailyRow) : Int × String :=
  (r.rok, r.station)

/-- Key carried by a row of the exceedance-count output. -/
def overRowKey (r : OverRow) : Int × String :=
  (r.rok, r.station)

/-- `stats.count_overnorm_days`: keep the daily rows whose mean is strictly
above the threshold (NaN compares `False`), group by (year, station), and
count the distinct dates (`nunique`) in each group. -/
def count_overnorm_days (daily : List DailyRow) (t : ℚ) : List OverRow :=
  (groupedBy overKey
      (fun g => ((g.map DailyRow.data).dedup).length) (exceedRows daily t)).map
    (fun p => { rok := p.1.1, station := p.1.2, days := p.2 })

/-- Descending order on the count column, used by `nlargest`. -/
def descDays (a b : OverRow) : Prop := b.days ≤ a.days

/-- Ascending order on the count column, used by `nsmallest`. -/
def ascDays (a b : OverRow) : Prop := a.days ≤ b.days

instance : DecidableRel descDays := fun _ _ => Nat.decLe _ _

instance : DecidableRel ascDays := fun _ _ => Nat.decLe _ _

/-- Line 136 of `stats.py`: the rows of the requested year. -/
def year_rows (oc : List OverRow) (year : Int) : List OverRow :=
  oc.filter (fun r => decide (r.rok = year))

/-- `stats.top_bottom_stations`: restrict to the given year, then concatenate
the result of `nlargest(n, col)` and `nsmallest(n, col)` on the last (count)
column.  `nlargest`/`nsmallest` with the default `keep="first"` are a stable
sort (descending resp. ascending) followed by `take n`. -/
def top_bottom_stations (oc : List OverRow) (year : Int) (n : Nat) : List OverRow :=
  let df := year_rows oc year
  let top := (List.insertionSort descDays df).take n
  let bottom := (List.insertionSort ascDays df).take n
  top ++ bottom

/-- Model of the Python slice `code[:2]`: the first two characters. -/
def code2 (st : String) : String :=
  String.mk (st.toList.take 2)

/-- Model of `wojew_dict[code]`: association-list lookup. -/
def dictGet (d : List (String × String)) (k : String) : Option String :=
  (d.find? (fun p => decide (p.1 = k))).map Prod.snd

/-- Descending order on the count column, used by
`sort_values(ascending=False)`. -/
def descCnt (a b : String × Nat) : Prop := b.2 ≤ a.2

instance : DecidableRel descCnt := fun _ _ => Nat.decLe _ _

/-- `stats.wojew_over_treshold`.  The station voivodeship is
`wojew_dict[code[:2]]` (line 157); a two-letter code absent from the
dictionary makes the `apply` raise `KeyError`, modelled as `Except.error`
carrying the offending code.  On success: per-(voivodeship, station, date)
means, then per-(date, voivodeship) means, then per-voivodeship counts of the
dates whose mean strictly exceeds the threshold, sorted descending by count. -/
def wojew_over_treshold (l : List LongRow) (dict : List (String × String))
    (t : ℚ) : Except String (List (String × Nat)) :=
  match (l.map (fun r => code2 r.station)).find?
      (fun c => (dictGet dict c).isNone) with
  | some c => Except.error c
  | none =>
    let aug := l.filterMap (fun r =>
      (dictGet dict (code2 r.station)).map
        (fun w => (w, r.station, r.datetime.date, r.pm25)))
    let daily := groupedBy (fun a => (a.1, a.2.1, a.2.2.1))
      (fun g => meanOpt (g.map (fun a => a.2.2.2))) aug
    let wmeans := groupedBy (fun p => (p.1.2.2, p.1.1))
      (fun g => meanOpt (g.map Prod.snd)) daily
    let counts := groupedBy (fun p => p.1.2)
      (fun g => (g.filter (fun p => optGT p.2 t)).length) wmeans
    Except.ok (List.insertionSort descCnt counts)

/-! ### C2: shape of the wide-to-long reshape -/

/-- Number of missing (NaN) cells of a wide frame. -/
def missingCount (w : WideFrame) : Nat :=
  (w.rows.map (fun p => p.2.countP (fun c => decide (c = RawCell.missing)))).sum

theorem stack_row_length (t : Datetime) (ss : List (String × String))
    (cs : List RawCell) (h : cs.length = ss.length) :
    ((ss.zip cs).filterMap (fun sc =>
        match sc.2 with
        | RawCell.missing => none
        | v => some (t, sc.1.1, sc.1.2, v))).length
      + cs.countP (fun c => decide (c = RawCell.missing)) = ss.length := by
  induction ss generalizing cs with
  | nil =>
    have : cs = [] := List.length_eq_zero.mp (by simpa using h)
    simp [this]
  | cons s st ih =>
    cases cs with
    | nil => simp at h
    | cons c ct =>
      have hct : ct.length = st.length := by simpa using h
      have hrec := ih ct hct
      cases c with
      | num q =>
        simp [List.zip_cons_cons, List.filterMap_cons, List.countP_cons]
        omega
      | str s2 =>
        simp [List.zip_cons_cons, List.filterMap_cons, List.countP_cons]
        omega
      | missing =>
        simp [List.zip_cons_cons, List.filterMap_cons, List.countP_cons]
        omega

theorem stack_rows_length (ss : List (String × String))
    (rows : List (Datetime × List RawCell))
    (hrect : ∀ p ∈ rows, p.2.length = ss.length) :
    (rows.flatMap (fun p =>
        (ss.zip p.2).filterMap (fun sc =>
          match sc.2 with
          | RawCell.missing => none
          | v => some (p.1, sc.1.1, sc.1.2, v)))).length
      + (rows.map (fun p => p.2.countP (fun c => decide (c = RawCell.missing)))).sum
      = rows.length * ss.length := by
  induction rows with
  | nil => simp
  | cons p rest ih =>
    have hp := hrect p (List.mem_cons_self p rest)
    have hrest : ∀ q ∈ rest, q.2.length = ss.length :=
      fun q hq => hrect q (List.mem_cons_of_mem p hq)
    have hrow := stack_row_length p.1 ss p.2 hp
    have := ih hrest
    simp only [List.flatMap_cons, List.map_cons, List.sum_cons,
      List.length_append, List.length_cons]
    have hmul : (rest.length + 1) * ss.length
        = rest.length * ss.length + ss.length := by ring
    omega

theorem stack_cells_length (w : WideFrame)
    (hrect : ∀ p ∈ w.rows, p.2.length = w.stations.length) :
    (stack_cells w).length + missingCount w
      = w.rows.length * w.stations.length :=
  stack_rows_length w.stations w.rows hrect

/-- C2, corrected part: the wide-to-long reshape keeps the four advertised
columns and produces one row per PRESENT cell; since the classic pandas
`stack` drops NaN cells, the row count is r·k minus the number of missing
cells, stated here additively. -/
theorem convert_df_shape (w : WideFrame)
    (hrect : ∀ p ∈ w.rows, p.2.length = w.stations.length) :
    convert_df_columns = ["datetime", "Miejscowość", "Kod stacji", "PM25"] ∧
    (convert_df w).length + missingCount w
      = w.rows.length * w.stations.length := by
  refine ⟨rfl, ?_⟩
  have : (convert_df w).length = (stack_cells w).length := by
    simp [convert_df]
  rw [this]
  exact stack_cells_length w hrect

/-- Concrete timestamp used by the example frames below. -/
def dtEx : Datetime := ⟨2015, 1, 1, 1⟩

/-- Wide frame with one timestamp row, two stations and one missing cell. -/
def wideEx : WideFrame :=
  { stations := [("Jelenia Góra", "DsJelGorOgin"), ("Wrocław", "DsWrocAlWisn")],
    rows := [(dtEx, [RawCell.num 151, RawCell.missing])] }

/-- Witness for `convert_df_shape` at a concrete frame with a missing cell. -/
theorem convert_df_shape_witness :
    convert_df_columns = ["datetime", "Miejscowość", "Kod stacji", "PM25"] ∧
    (convert_df wideEx).length + missingCount wideEx
      = wideEx.rows.length * wideEx.stations.length :=
  convert_df_shape wideEx (by decide)

/-- Wide frame consisting of a single missing cell. -/
def wideMissing : WideFrame :=
  { stations := [("Wrocław", "DsWrocAlWisn")],
    rows := [(dtEx, [RawCell.missing])] }

/-- C2, counterexample: on a 1×1 wide frame whose only measurement is
missing, `convert_df` returns 0 rows, not r·k = 1 — missing cells are
dropped by the reshape, contradicting the claimed row count. -/
theorem convert_df_missing_cell_cex :
    (convert_df wideMissing).length ≠
      wideMissing.rows.length * wideMissing.stations.length := by
  decide

/-! ### C9: cleaning of textual measurement values never fails -/

/-- Wide frame whose only cell is the padded textual value of the test
`test_convert_df_cleans_strings`. -/
def wideStr : WideFrame :=
  { stations := [("Wrocław", "DsWrocAlWisn")],
    rows := [(dtEx, [RawCell.str " 151,112 "])] }

/-- Wide frame whose only cell is a non-numeric string. -/
def wideBad : WideFrame :=
  { stations := [("Wrocław", "DsWrocAlWisn")],
    rows := [(dtEx, [RawCell.str "n/d"])] }

/-- C9: `convert_df` is total on string cells — every single-cell frame with
an arbitrary string yields exactly one row whose `PM25` is the cleaned
parse; the padded value `" 151,112 "` is stripped, the comma replaced, and
parsed to 151.112, while a non-numeric string coerces to NaN instead of
raising. -/
theorem convert_df_string_cleaning :
    (∀ (t : Datetime) (c st s : String), ∃ v,
        convert_df ⟨[(c, st)], [(t, [RawCell.str s])]⟩ = [⟨t, c, st, v⟩]) ∧
    convert_df wideStr = [⟨dtEx, "Wrocław", "DsWrocAlWisn", some (18889/125)⟩] ∧
    convert_df wideBad = [⟨dtEx, "Wrocław", "DsWrocAlWisn", none⟩] := by
  refine ⟨fun t c st s => ⟨cleanCell (RawCell.str s), rfl⟩, ?_, rfl⟩
  have h : convert_df wideStr = [⟨dtEx, "Wrocław", "DsWrocAlWisn",
      some ((1 : ℚ) * ((151 : ℚ) + (112 : ℚ) / (10 : ℚ) ^ 3))⟩] := rfl
  rw [h]
  norm_num

/-! ### C3, C4: grouping arithmetic of the monthly means -/

theorem meanOpt_eq (vs : List (Option ℚ)) (h : vs.filterMap id ≠ []) :
    meanOpt vs = some (meanQ (vs.filterMap id)) := by
  simp only [meanOpt]
  rw [if_neg]
  simpa [List.isEmpty_iff] using h

/-- Non-missing `PM25` values of the (year, month, city, station) group. -/
def groupPM25 (l : List LongRow) (k : Int × Int × String × String) : List ℚ :=
  ((grp monthlyKey l k).map LongRow.pm25).filterMap id

/-- C3: `calc_monthly_means` has one output row per (year, month, city,
station) group occurring in the input, and the row of a group with at least
one non-missing value carries the arithmetic mean of the non-missing `PM25`
values of that group. -/
theorem calc_monthly_means_correct (l : List LongRow)
    (k : Int × Int × String × String)
    (hk : k ∈ gkeys monthlyKey l) (hnm : groupPM25 l k ≠ []) :
    ((calc_monthly_means l).map monthlyRowKey = gkeys monthlyKey l) ∧
    (calc_monthly_means l).filter (fun r => decide (monthlyRowKey r = k)) =
      [⟨k.1, k.2.1, k.2.2.1, k.2.2.2,
        some ((groupPM25 l k).sum / ((groupPM25 l k).length : ℚ))⟩] := by
  constructor
  · rw [calc_monthly_means, List.map_map]
    have hfst : (monthlyRowKey ∘ fun p : (Int × Int × String × String) × Option ℚ =>
        ({ rok := p.1.1, miesiac := p.1.2.1, city := p.1.2.2.1,
           station := p.1.2.2.2, mean := p.2 } : MonthlyRow)) = Prod.fst := by
      funext p
      simp [monthlyRowKey, Function.comp]
    rw [hfst, groupedBy_map_fst]
  · rw [calc_monthly_means, List.filter_map]
    have hcomp : ((fun r => decide (monthlyRowKey r = k)) ∘
        fun p : (Int × Int × String × String) × Option ℚ =>
        ({ rok := p.1.1, miesiac := p.1.2.1, city := p.1.2.2.1,
           station := p.1.2.2.2, mean := p.2 } : MonthlyRow)) =
        fun p => decide (p.1 = k) := by
      funext p
      simp [monthlyRowKey, Function.comp]
    rw [hcomp, groupedBy_filter_eq _ _ _ _ hk, List.map_cons, List.map_nil]
    have hv : meanOpt ((grp monthlyKey l k).map LongRow.pm25)
        = some ((groupPM25 l k).sum / ((groupPM25 l k).length : ℚ)) := by
      rw [meanOpt_eq _ hnm]
      rfl
    simp [hv]

/-- Long frame used as concrete witness data (the shape of the fixture
`df_pm25_formated` of the test suite). -/
def exLong : List LongRow :=
  [⟨⟨2015, 1, 1, 1⟩, "Jelenia Góra", "DsJelGorOgin", some (151112/1000)⟩,
   ⟨⟨2015, 1, 1, 1⟩, "Wrocław", "DsWrocAlWisn", some 78⟩,
   ⟨⟨2015, 1, 1, 2⟩, "Jelenia Góra", "DsJelGorOgin", some (262566/1000)⟩,
   ⟨⟨2015, 1, 1, 2⟩, "Wrocław", "DsWrocAlWisn", some 42⟩]

/-- Key of the Jelenia Góra station group in `exLong`. -/
def kEx : Int × Int × String × String := (2015, 1, "Jelenia Góra", "DsJelGorOgin")

/-- Witness for `calc_monthly_means_correct` on concrete data. -/
theorem calc_monthly_means_witness :
    ((calc_monthly_means exLong).map monthlyRowKey = gkeys monthlyKey exLong) ∧
    (calc_monthly_means exLong).filter (fun r => decide (monthlyRowKey r = kEx)) =
      [⟨kEx.1, kEx.2.1, kEx.2.2.1, kEx.2.2.2,
        some ((groupPM25 exLong kEx).sum / ((groupPM25 exLong kEx).length : ℚ))⟩] :=
  calc_monthly_means_correct exLong kEx (by decide) (by decide)

/-- Non-missing station means of the (year, month, city) group. -/
def cityMeans (mm : List MonthlyRow) (k : Int × Int × String) : List ℚ :=
  ((grp cityKey mm k).map MonthlyRow.mean).filterMap id

/-- C4: `calc_monthly_city_means` has one output row per (year, month, city)
group occurring in the station table, and the row of a group with at least
one non-missing station mean carries the unweighted arithmetic mean of the
station means — one summand per station row, never the pooled raw values. -/
theorem calc_monthly_city_means_correct (mm : List MonthlyRow)
    (k : Int × Int × String)
    (hk : k ∈ gkeys cityKey mm) (hnm : cityMeans mm k ≠ []) :
    ((calc_monthly_city_means mm).map cityRowKey = gkeys cityKey mm) ∧
    (calc_monthly_city_means mm).filter (fun r => decide (cityRowKey r = k)) =
      [⟨k.1, k.2.1, k.2.2,
        some ((cityMeans mm k).sum / ((cityMeans mm k).length : ℚ))⟩] := by
  constructor
  · rw [calc_monthly_city_means, List.map_map]
    have hfst : (cityRowKey ∘ fun p : (Int × Int × String) × Option ℚ =>
        ({ rok := p.1.1, miesiac := p.1.2.1, city := p.1.2.2,
           mean := p.2 } : CityRow)) = Prod.fst := by
      funext p
      simp [cityRowKey, Function.comp]
    rw [hfst, groupedBy_map_fst]
  · rw [calc_monthly_city_means, List.filter_map]
    have hcomp : ((fun r => decide (cityRowKey r = k)) ∘
        fun p : (Int × Int × String) × Option ℚ =>
        ({ rok := p.1.1, miesiac := p.1.2.1, city := p.1.2.2,
           mean := p.2 } : CityRow)) =
        fun p => decide (p.1 = k) := by
      funext p
      simp [cityRowKey, Function.comp]
    rw [hcomp, groupedBy_filter_eq _ _ _ _ hk, List.map_cons, List.map_nil]
    have hv : meanOpt ((grp cityKey mm k).map MonthlyRow.mean)
        = some ((cityMeans mm k).sum / ((cityMeans mm k).length : ℚ)) := by
      rw [meanOpt_eq _ hnm]
      rfl
    simp [hv]

/-- Station monthly means used as concrete witness data (fixture
`df_monthly_means` of the test suite). -/
def exMonthly : List MonthlyRow :=
  [⟨2015, 1, "Jelenia Góra", "DsJelGorOgin", some (2068390/10000)⟩,
   ⟨2015, 1, "Wrocław", "DsWrocAlWisn", some 60⟩,
   ⟨2015, 1, "Wrocław", "DsWrocWybCon", some (419122/10000)⟩]

/-- Key of the Wrocław city group in `exMonthly`. -/
def kCityEx : Int × Int × String := (2015, 1, "Wrocław")

/-- Witness for `calc_monthly_city_means_correct` on concrete data. -/
theorem calc_monthly_city_means_witness :
    ((calc_monthly_city_means exMonthly).map cityRowKey = gkeys cityKey exMonthly) ∧
    (calc_monthly_city_means exMonthly).filter
        (fun r => decide (cityRowKey r = kCityEx)) =
      [⟨kCityEx.1, kCityEx.2.1, kCityEx.2.2,
        some ((cityMeans exMonthly kCityEx).sum /
          ((cityMeans exMonthly kCityEx).length : ℚ))⟩] :=
  calc_monthly_city_means_correct exMonthly kCityEx (by decide) (by decide)

/-! ### C1: counting of exceedance days -/

/-- C1: a (year, station) pair appears in the output of
`count_overnorm_days` exactly when it has at least one daily row with mean
strictly above the threshold (a mean equal to the threshold does not
qualify, NaN does not qualify), and its row counts the distinct dates among
the exceeding rows of that pair. -/
theorem count_overnorm_days_correct (daily : List DailyRow) (t : ℚ) :
    (∀ y st, ((y, st) ∈ (count_overnorm_days daily t).map overRowKey ↔
      ∃ r ∈ daily, r.rok = y ∧ r.station = st ∧ optGT r.dmean t = true)) ∧
    (∀ row ∈ count_overnorm_days daily t,
      row.days = ((grp overKey (exceedRows daily t) (row.rok, row.station)).map
        DailyRow.data).dedup.length) := by
  have hkeys : (count_overnorm_days daily t).map overRowKey
      = gkeys overKey (exceedRows daily t) := by
    rw [count_overnorm_days, List.map_map]
    have hfst : (overRowKey ∘ fun p : (Int × String) × Nat =>
        ({ rok := p.1.1, station := p.1.2, days := p.2 } : OverRow)) = Prod.fst := by
      funext p
      simp [overRowKey, Function.comp]
    rw [hfst, groupedBy_map_fst]
  refine ⟨fun y st => ?_, fun row hrow => ?_⟩
  · rw [hkeys, mem_gkeys]
    constructor
    · rintro ⟨r, hr, hk⟩
      rw [exceedRows, List.mem_filter] at hr
      refine ⟨r, hr.1, ?_, ?_, hr.2⟩
      · exact congrArg Prod.fst hk
      · exact congrArg Prod.snd hk
    · rintro ⟨r, hr, hy, hst, hgt⟩
      refine ⟨r, List.mem_filter.mpr ⟨hr, hgt⟩, ?_⟩
      simp [overKey, hy, hst]
  · rw [count_overnorm_days] at hrow
    rcases List.mem_map.mp hrow with ⟨p, hp, rfl⟩
    have hp2 : ∃ a b, (a, b) ∈ gkeys overKey (exceedRows daily t) ∧
        ((a, b), (List.map DailyRow.data
          (grp overKey (exceedRows daily t) (a, b))).dedup.length) = p := by
      simpa [groupedBy] using hp
    rcases hp2 with ⟨a, b, _, rfl⟩
    simp

/-- Daily means used as concrete witness data (shape of the
`test_count_overnorm_days` fixture, with integral means). -/
def exDaily : List DailyRow :=
  [⟨2015, ⟨2015, 1, 1⟩, "Jelenia Góra", "DsJelGorOgin", some 82⟩,
   ⟨2015, ⟨2015, 1, 2⟩, "Jelenia Góra", "DsJelGorOgin", some 20⟩,
   ⟨2015, ⟨2015, 1, 1⟩, "Wrocław", "DsWrocAlWisn", some 44⟩,
   ⟨2015, ⟨2015, 1, 2⟩, "Wrocław", "DsWrocAlWisn", some 9⟩,
   ⟨2015, ⟨2015, 1, 1⟩, "Wrocław", "DsWrocWybCon", some 6⟩,
   ⟨2015, ⟨2015, 1, 2⟩, "Wrocław", "DsWrocWybCon", some 5⟩]

/-- Witness for `count_overnorm_days_correct` on concrete data: the Jelenia
Góra station key occurrence and the day count of its output row. -/
theorem count_overnorm_days_witness :
    ((2015, "DsJelGorOgin") ∈ (count_overnorm_days exDaily 15).map overRowKey ↔
      ∃ r ∈ exDaily, r.rok = 2015 ∧ r.station = "DsJelGorOgin" ∧
        optGT r.dmean 15 = true) ∧
    (⟨2015, "DsJelGorOgin", 2⟩ : OverRow).days =
      ((grp overKey (exceedRows exDaily 15) (2015, "DsJelGorOgin")).map
        DailyRow.data).dedup.length :=
  ⟨(count_overnorm_days_correct exDaily 15).1 2015 "DsJelGorOgin",
   (count_overnorm_days_correct exDaily 15).2 ⟨2015, "DsJelGorOgin", 2⟩ (by decide)⟩

/-! ### C10: top and bottom stations -/

instance : IsTotal OverRow descDays :=
  ⟨fun a b => Nat.le_total b.days a.days⟩

instance : IsTrans OverRow descDays :=
  ⟨fun _ _ _ hab hbc => le_trans hbc hab⟩

instance : IsTotal OverRow ascDays :=
  ⟨fun a b => Nat.le_total a.days b.days⟩

instance : IsTrans OverRow ascDays :=
  ⟨fun _ _ _ hab hbc => le_trans hab hbc⟩

theorem top_bottom_mem (oc : List OverRow) (year : Int) (n : Nat) (r : OverRow)
    (hr : r ∈ top_bottom_stations oc year n) : r ∈ year_rows oc year := by
  rw [top_bottom_stations] at hr
  rcases List.mem_append.mp hr with h | h
  · exact (List.mem_insertionSort descDays).mp (List.mem_of_mem_take h)
  · exact (List.mem_insertionSort ascDays).mp (List.mem_of_mem_take h)

/-- C10, amended part: every output row belongs to the requested year; the
output is the `n` first rows of the descending stable sort followed by the
`n` first rows of the ascending one (so 2·min(n,k) rows in total, each top
row's count dominating every unselected row's count and dually for the
bottom rows); and when 1 ≤ k < 2n some row necessarily appears twice. -/
theorem top_bottom_stations_correct (oc : List OverRow) (year : Int) (n : Nat) :
    (∀ r ∈ top_bottom_stations oc year n, r.rok = year) ∧
    (top_bottom_stations oc year n).length = 2 * min n (year_rows oc year).length ∧
    (∀ a ∈ (List.insertionSort descDays (year_rows oc year)).take n,
      ∀ b ∈ (List.insertionSort descDays (year_rows oc year)).drop n,
        b.days ≤ a.days) ∧
    (∀ a ∈ (List.insertionSort ascDays (year_rows oc year)).take n,
      ∀ b ∈ (List.insertionSort ascDays (year_rows oc year)).drop n,
        a.days ≤ b.days) ∧
    ((year_rows oc year).length < 2 * n → 0 < (year_rows oc year).length →
      ∃ r, 2 ≤ (top_bottom_stations oc year n).count r) := by
  refine ⟨?_, ?_, ?_, ?_, ?_⟩
  · intro r hr
    have := top_bottom_mem oc year n r hr
    exact of_decide_eq_true (List.mem_filter.mp this).2
  · simp [top_bottom_stations, Nat.two_mul]
  · intro a ha b hb
    have hs : List.Sorted descDays
        (List.insertionSort descDays (year_rows oc year)) :=
      List.sorted_insertionSort descDays (year_rows oc year)
    rw [← List.take_append_drop n
      (List.insertionSort descDays (year_rows oc year))] at hs
    exact (List.pairwise_append.mp hs).2.2 a ha b hb
  · intro a ha b hb
    have hs : List.Sorted ascDays
        (List.insertionSort ascDays (year_rows oc year)) :=
      List.sorted_insertionSort ascDays (year_rows oc year)
    rw [← List.take_append_drop n
      (List.insertionSort ascDays (year_rows oc year))] at hs
    exact (List.pairwise_append.mp hs).2.2 a ha b hb
  · intro h1 h2
    by_contra hno
    push_neg at hno
    have hnd : (top_bottom_stations oc year n).Nodup :=
      List.nodup_iff_count_le_one.mpr (fun a => by have := hno a; omega)
    have hsub : (top_bottom_stations oc year n).toFinset ⊆
        (year_rows oc year).toFinset := by
      intro x hx
      exact List.mem_toFinset.mpr
        (top_bottom_mem oc year n x (List.mem_toFinset.mp hx))
    have h3 : (top_bottom_stations oc year n).toFinset.card
        = (top_bottom_stations oc year n).length :=
      List.toFinset_card_of_nodup hnd
    have h4 := Finset.card_le_card hsub
    have h5 : (year_rows oc year).toFinset.card ≤ (year_rows oc year).length :=
      List.toFinset_card_le _
    have h6 : (top_bottom_stations oc year n).length
        = 2 * min n (year_rows oc year).length := by
      simp [top_bottom_stations, Nat.two_mul]
    omega

/-- Exceedance counts used as concrete witness data: three 2015 rows and one
2018 row, so that `n = 2` makes the top and bottom blocks overlap. -/
def exOver : List OverRow :=
  [⟨2015, "DsJelGorOgin", 100⟩, ⟨2015, "DsWrocAlWisn", 80⟩,
   ⟨2015, "DsWrocWybCon", 10⟩, ⟨2018, "DsJelGorOgin", 999⟩]

/-- Witness for `top_bottom_stations_correct`: with k = 3 year rows and
n = 2 some row of the output is repeated. -/
theorem top_bottom_stations_witness :
    ∃ r, 2 ≤ (top_bottom_stations exOver 2015 2).count r :=
  (top_bottom_stations_correct exOver 2015 2).2.2.2.2 (by decide) (by decide)

/-- Exceedance counts whose only row belongs to a different year. -/
def exOnly2018 : List OverRow :=
  [⟨2018, "DsJelGorOgin", 999⟩]

/-- C10, counterexample: with k = 0 rows for the requested year (and
k < 2n), the output is empty, so no station row appears twice — the overlap
clause of the claim fails for k = 0. -/
theorem top_bottom_stations_cex :
    (year_rows exOnly2018 2015).length < 2 * 1 ∧
    top_bottom_stations exOnly2018 2015 1 = [] ∧
    (top_bottom_stations exOnly2018 2015 1).Nodup := by
  decide

/-! ### C6: propagation of the lookup failure -/

/-- Voivodeship dictionary used by the concrete examples. -/
def exDict : List (String × String) :=
  [("Ds", "dolnośląskie")]

/-- Long row whose station code has a two-letter code absent from
`exDict`. -/
def badRow : LongRow :=
  ⟨⟨2024, 1, 1, 1⟩, "Zakopane", "XxZakopane1", some 99⟩

/-- C6: on input containing a station code whose two-letter code is not a
key of the dictionary, `wojew_over_treshold` propagates the lookup failure
(`KeyError "Xx"`) instead of skipping the row or substituting a default
voivodeship; the same frame without the offending row succeeds. -/
theorem wojew_over_treshold_keyerror :
    wojew_over_treshold (badRow :: exLong) exDict 15 = Except.error "Xx" ∧
    (wojew_over_treshold exLong exDict 15).isOk = true :=
  ⟨rfl, rfl⟩

/-! ### C7: the acquisition pipeline -/

/-- Modelled from the spec: the data-acquisition module (`get_data.py`) is
not under `src/` — only its test is — so its steps are abstract functions
here.  The spec describes them as "sequential HTTP fetch → ZIP extraction →
spreadsheet parsing → column renaming/reindexing based on a metadata
table". -/
structure GetDataSteps (Frame Meta : Type) where
  download_gios_archive : Int → String → String → Frame
  download_gios_meta : String → Meta
  clean_pm25 : Frame → Int → List Int → Frame
  midnight : Frame → Frame
  update_stations : Frame → Meta → Frame
  add_city : Frame → Meta → Frame

/-- Observable events of one run of the acquisition pipeline, in execution
order: each step records the arguments it was called with (as the mocks of
`test_make_pm25_data` do), and `toCsv` records the written frame. -/
inductive ETLEvent (Frame Meta : Type) where
  | downloadArchive (year : Int) (giosId file : String)
  | downloadMeta (giosId : String)
  | clean (df : Frame) (headerRow : Int) (dropRows : List Int)
  | midnightAdjust (df : Frame)
  | updateStations (df : Frame) (meta : Meta)
  | addCity (df : Frame) (meta : Meta)
  | toCsv (file : String) (df : Frame)

/-- Modelled from the spec: `get_data.make_pm25_data` runs the acquisition
pipeline strictly in sequence — download the yearly archive, download the
station metadata, clean the raw sheet, adjust midnight timestamps, rename
station columns from old to current codes, attach city names — each step
consuming the previous step's output, then writes the final frame to the
given CSV file and returns it together with the metadata table. -/
def make_pm25_data {Frame Meta : Type} (s : GetDataSteps Frame Meta)
    (year : Int) (giosId metaId file : String) (headerRow : Int)
    (dropRows : List Int) (outfile : String) :
    (Frame × Meta) × List (ETLEvent Frame Meta) :=
  let raw := s.download_gios_archive year giosId file
  let meta := s.download_gios_meta metaId
  let cleaned := s.clean_pm25 raw headerRow dropRows
  let shifted := s.midnight cleaned
  let updated := s.update_stations shifted meta
  let final := s.add_city updated meta
  ((final, meta),
   [ETLEvent.downloadArchive year giosId file,
    ETLEvent.downloadMeta metaId,
    ETLEvent.clean raw headerRow dropRows,
    ETLEvent.midnightAdjust cleaned,
    ETLEvent.updateStations shifted meta,
    ETLEvent.addCity updated meta,
    ETLEvent.toCsv outfile final])

/-- C7: for every choice of step implementations and arguments, the pipeline
returns the frame obtained by threading each step's output into the next
step — `add_city (update_stations (midnight (clean_pm25 raw)) meta) meta` —
together with the metadata table, and its event trace is exactly the six
steps in order followed by the CSV write of the final frame. -/
theorem make_pm25_data_pipeline {Frame Meta : Type} (s : GetDataSteps Frame Meta)
    (year : Int) (giosId metaId file : String) (headerRow : Int)
    (dropRows : List Int) (outfile : String) :
    make_pm25_data s year giosId metaId file headerRow dropRows outfile =
      ((s.add_city
          (s.update_stations
            (s.midnight
              (s.clean_pm25 (s.download_gios_archive year giosId file)
                headerRow dropRows))
            (s.download_gios_meta metaId))
          (s.download_gios_meta metaId),
        s.download_gios_meta metaId),
       [ETLEvent.downloadArchive year giosId file,
        ETLEvent.downloadMeta metaId,
        ETLEvent.clean (s.download_gios_archive year giosId file)
          headerRow dropRows,
        ETLEvent.midnightAdjust
          (s.clean_pm25 (s.download_gios_archive year giosId file)
            headerRow dropRows),
        ETLEvent.updateStations
          (s.midnight
            (s.clean_pm25 (s.download_gios_archive year giosId file)
              headerRow dropRows))
          (s.download_gios_meta metaId),
        ETLEvent.addCity
          (s.update_stations
            (s.midnight
              (s.clean_pm25 (s.download_gios_archive year giosId file)
                headerRow dropRows))
            (s.download_gios_meta metaId))
          (s.download_gios_meta metaId),
        ETLEvent.toCsv outfile
          (s.add_city
            (s.update_stations
              (s.midnight
                (s.clean_pm25 (s.download_gios_archive year giosId file)
                  headerRow dropRows))
              (s.download_gios_meta metaId))
            (s.download_gios_meta metaId))]) :=
  rfl

/-! ### C8: effect of each operation on the frame passed by the caller

Each statistics function except `wojew_over_treshold` starts with
`df = input.copy()` and only ever touches the copy.  `wojew_over_treshold`
instead assigns `long['date']` (line 155) and `long['Województwo']`
(lines 156–157) directly on the caller's frame; the subsequent
`long = long.drop(...)` (line 159) only rebinds the local name, so the
caller keeps `Miejscowość`.  When a two-letter code is missing from the
dictionary, line 156 has already fired but the `apply` of line 157 raises
before its assignment, so the caller's `Województwo` column holds the raw
two-letter codes. -/

/-- A cell value as observed through the frame: string, numeric-or-NaN,
date, or timestamp. -/
inductive PVal where
  | vs (x : String)
  | vq (x : Option ℚ)
  | vd (x : Date)
  | vt (x : Datetime)
  deriving DecidableEq, Repr

/-- The (column name, value) cells of a long row. -/
def LongRow.cells (r : LongRow) : List (String × PVal) :=
  [("datetime", PVal.vt r.datetime), ("Miejscowość", PVal.vs r.city),
   ("Kod stacji", PVal.vs r.station), ("PM25", PVal.vq r.pm25)]

/-- A long row after `wojew_over_treshold` has mutated the caller's frame:
the original four columns plus `date` and `Województwo`. -/
structure LongRowAug where
  datetime : Datetime
  city : String
  station : String
  pm25 : Option ℚ
  date : Date
  voiv : String
  deriving DecidableEq, Repr

/-- The (column name, value) cells of a mutated long row. -/
def LongRowAug.cells (a : LongRowAug) : List (String × PVal) :=
  [("datetime", PVal.vt a.datetime), ("Miejscowość", PVal.vs a.city),
   ("Kod stacji", PVal.vs a.station), ("PM25", PVal.vq a.pm25),
   ("date", PVal.vd a.date), ("Województwo", PVal.vs a.voiv)]

/-- The original four columns of a mutated long row. -/
def LongRowAug.core (a : LongRowAug) : LongRow :=
  ⟨a.datetime, a.city, a.station, a.pm25⟩

/-- Caller's frame after `convert_df` (line 14: `df = df_pm25.copy()`). -/
def convert_df_inputAfter (w : WideFrame) : WideFrame := w

/-- Caller's frame after `calc_monthly_means` (line 44: `formated.copy()`). -/
def calc_monthly_means_inputAfter (l : List LongRow) : List LongRow := l

/-- Caller's frame after `calc_monthly_city_means` (line 66:
`monthly_means.copy()`). -/
def calc_monthly_city_means_inputAfter (mm : List MonthlyRow) : List MonthlyRow := mm

/-- Caller's frame after `calc_daily_means` (line 86: `formated.copy()`). -/
def calc_daily_means_inputAfter (l : List LongRow) : List LongRow := l

/-- Caller's frame after `count_overnorm_days` (line 113: `daily.copy()`). -/
def count_overnorm_days_inputAfter (daily : List DailyRow) : List DailyRow := daily

/-- Caller's frame after `top_bottom_stations` (line 136: the year filter is
followed by `.copy()`). -/
def top_bottom_stations_inputAfter (oc : List OverRow) : List OverRow := oc

/-- Caller's frame after `wojew_over_treshold` (lines 155–157): the `date`
and `Województwo` columns are added in place; on lookup failure the
`Województwo` column keeps the raw two-letter codes of line 156. -/
def wojew_over_treshold_inputAfter (l : List LongRow)
    (dict : List (String × String)) : List LongRowAug :=
  if (l.map (fun r => code2 r.station)).all (fun c => (dictGet dict c).isSome) then
    l.map (fun r => ⟨r.datetime, r.city, r.station, r.pm25, r.datetime.date,
      (dictGet dict (code2 r.station)).getD (code2 r.station)⟩)
  else
    l.map (fun r => ⟨r.datetime, r.city, r.station, r.pm25, r.datetime.date,
      code2 r.station⟩)

/-- C8, amended part: the six copying operations leave the caller's frame
unchanged, while `wojew_over_treshold` keeps every original column and cell
intact but appends the `date` and `Województwo` columns in place. -/
theorem frame_effects :
    (∀ w : WideFrame, convert_df_inputAfter w = w) ∧
    (∀ l : List LongRow, calc_monthly_means_inputAfter l = l) ∧
    (∀ mm : List MonthlyRow, calc_monthly_city_means_inputAfter mm = mm) ∧
    (∀ l : List LongRow, calc_daily_means_inputAfter l = l) ∧
    (∀ d : List DailyRow, count_overnorm_days_inputAfter d = d) ∧
    (∀ oc : List OverRow, top_bottom_stations_inputAfter oc = oc) ∧
    (∀ (l : List LongRow) (dict : List (String × String)),
      (wojew_over_treshold_inputAfter l dict).map LongRowAug.core = l ∧
      (wojew_over_treshold_inputAfter l dict).map (fun a => a.cells.take 4)
        = l.map LongRow.cells ∧
      ∀ a ∈ wojew_over_treshold_inputAfter l dict,
        a.cells.map Prod.fst
          = ["datetime", "Miejscowość", "Kod stacji", "PM25",
             "date", "Województwo"]) := by
  refine ⟨fun _ => rfl, fun _ => rfl, fun _ => rfl, fun _ => rfl,
    fun _ => rfl, fun _ => rfl, ?_⟩
  intro l dict
  unfold wojew_over_treshold_inputAfter
  split
  · refine ⟨?_, ?_, fun a _ => rfl⟩
    · rw [List.map_map]
      exact List.map_id l
    · rw [List.map_map]
      rfl
  · refine ⟨?_, ?_, fun a _ => rfl⟩
    · rw [List.map_map]
      exact List.map_id l
    · rw [List.map_map]
      rfl

/-- One-row frame used to exhibit the in-place mutation. -/
def exMut : List LongRow :=
  [⟨⟨2015, 1, 1, 1⟩, "Wrocław", "DsWrocAlWisn", none⟩]

/-- Witness for `frame_effects` on concrete data. -/
theorem frame_effects_witness :
    convert_df_inputAfter wideEx = wideEx ∧
    ((wojew_over_treshold_inputAfter exMut exDict).map LongRowAug.core = exMut ∧
     (wojew_over_treshold_inputAfter exMut exDict).map (fun a => a.cells.take 4)
       = exMut.map LongRow.cells ∧
     ∀ a ∈ wojew_over_treshold_inputAfter exMut exDict,
       a.cells.map Prod.fst
         = ["datetime", "Miejscowość", "Kod stacji", "PM25",
            "date", "Województwo"]) :=
  ⟨frame_effects.1 wideEx, frame_effects.2.2.2.2.2.2 exMut exDict⟩

/-- C8, counterexample: after `wojew_over_treshold`, the caller's one-row
frame has six columns instead of its original four — the call does not leave
the input frame unchanged. -/
theorem frame_mutation_cex :
    (wojew_over_treshold_inputAfter exMut exDict).map LongRowAug.cells ≠
      exMut.map LongRow.cells := by
  decide

/-! ### C5: toolkit for composing groupbys -/

theorem dedup_filter {α : Type} [DecidableEq α] (p : α → Bool) (l : List α) :
    l.dedup.filter p = (l.filter p).dedup := by
  induction l with
  | nil => simp
  | cons a t ih =>
    by_cases ha : a ∈ t
    · rw [List.dedup_cons_of_mem ha]
      by_cases hp : p a
      · rw [List.filter_cons_of_pos hp,
          List.dedup_cons_of_mem (List.mem_filter.mpr ⟨ha, hp⟩)]
        exact ih
      · rw [List.filter_cons_of_neg (by simpa using hp)]
        exact ih
    · rw [List.dedup_cons_of_not_mem ha]
      by_cases hp : p a
      · rw [List.filter_cons_of_pos hp, List.filter_cons_of_pos hp,
          List.dedup_cons_of_not_mem (fun hmem => ha (List.mem_filter.mp hmem).1),
          ih]
      · rw [List.filter_cons_of_neg (by simpa using hp),
          List.filter_cons_of_neg (by simpa using hp)]
        exact ih

theorem dedup_map_dedup {α β : Type} [DecidableEq α] [DecidableEq β]
    (f : α → β) (l : List α) :
    (l.dedup.map f).dedup = (l.map f).dedup := by
  induction l with
  | nil => simp
  | cons a t ih =>
    by_cases ha : a ∈ t
    · rw [List.dedup_cons_of_mem ha, List.map_cons,
        List.dedup_cons_of_mem (List.mem_map_of_mem f ha)]
      exact ih
    · rw [List.dedup_cons_of_not_mem ha, List.map_cons, List.map_cons]
      by_cases hfa : f a ∈ t.map f
      · have h1 : f a ∈ t.dedup.map f := by
          rcases List.mem_map.mp hfa with ⟨x, hx, he⟩
          exact he ▸ List.mem_map_of_mem f (List.mem_dedup.mpr hx)
        rw [List.dedup_cons_of_mem h1, List.dedup_cons_of_mem hfa]
        exact ih
      · have h1 : f a ∉ t.dedup.map f := fun hmem => by
          rcases List.mem_map.mp hmem with ⟨x, hx, he⟩
          exact hfa (he ▸ List.mem_map_of_mem f (List.mem_dedup.mp hx))
        rw [List.dedup_cons_of_not_mem h1, List.dedup_cons_of_not_mem hfa, ih]

theorem dedup_map_inj {α β : Type} [DecidableEq α] [DecidableEq β]
    (f : α → β) (hf : ∀ x y, f x = f y → x = y) (l : List α) :
    (l.map f).dedup = l.dedup.map f := by
  induction l with
  | nil => simp
  | cons a t ih =>
    rw [List.map_cons]
    by_cases ha : a ∈ t
    · rw [List.dedup_cons_of_mem (List.mem_map_of_mem f ha),
        List.dedup_cons_of_mem ha, ih]
    · have hna : f a ∉ t.map f := fun hmem => by
        rcases List.mem_map.mp hmem with ⟨x, hx, he⟩
        exact ha ((hf x a he) ▸ hx)
      rw [List.dedup_cons_of_not_mem hna, List.dedup_cons_of_not_mem ha,
        List.map_cons, ih]

theorem filterMap_eq_map_of {α β : Type} (f : α → Option β) (g : α → β)
    (l : List α) (h : ∀ a ∈ l, f a = some (g a)) :
    l.filterMap f = l.map g := by
  induction l with
  | nil => rfl
  | cons a t ih =>
    simp only [List.filterMap_cons, h a (List.mem_cons_self a t), List.map_cons]
    rw [ih (fun x hx => h x (List.mem_cons_of_mem a hx))]

theorem decide_pair_eq {α β : Type} [DecidableEq α] [DecidableEq β]
    (x d : α) (y w : β) :
    (decide ((x, y) = (d, w))) = (decide (x = d) && decide (y = w)) := by
  by_cases h1 : x = d <;> by_cases h2 : y = w <;> simp [h1, h2]

/-! ### C5: the voivodeship exceedance counts -/

/-- Voivodeship of a station, as the spec reads the code: the dictionary
entry of the two-letter code of the station (total function; the claim only
uses it when the lookup succeeds). -/
def stationVoiv (dict : List (String × String)) (st : String) : String :=
  (dictGet dict (code2 st)).getD (code2 st)

/-- Voivodeship of a long row. -/
def rowVoiv (dict : List (String × String)) (r : LongRow) : String :=
  stationVoiv dict r.station

/-- The row of `aug` produced from a long row on the success path of
`wojew_over_treshold`. -/
def afRow (dict : List (String × String)) (r : LongRow) :
    String × String × Date × Option ℚ :=
  (rowVoiv dict r, r.station, r.datetime.date, r.pm25)

/-- Key triple (voivodeship, station, date) of a long row. -/
def tripRow (dict : List (String × String)) (r : LongRow) :
    String × String × Date :=
  (rowVoiv dict r, r.station, r.datetime.date)

/-- Distinct calendar dates on which the voivodeship has any row. -/
def voivDates (l : List LongRow) (dict : List (String × String))
    (w : String) : List Date :=
  ((l.filter (fun r => decide (rowVoiv dict r = w))).map
    (fun r => r.datetime.date)).dedup

/-- Distinct stations of the voivodeship having a row on the given date. -/
def stationsOn (l : List LongRow) (dict : List (String × String))
    (w : String) (d : Date) : List String :=
  ((l.filter (fun r => decide (r.datetime.date = d) &&
      decide (rowVoiv dict r = w))).map LongRow.station).dedup

/-- Daily mean of one station: mean of the non-missing `PM25` values of its
rows on that date. -/
def stationDayMean (l : List LongRow) (st : String) (d : Date) : Option ℚ :=
  meanOpt ((l.filter (fun r => decide (r.station = st) &&
      decide (r.datetime.date = d))).map LongRow.pm25)

/-- Voivodeship daily mean: the mean over the voivodeship stations (those
with data that day) of each station's daily mean. -/
def voivDayMean (l : List LongRow) (dict : List (String × String))
    (w : String) (d : Date) : Option ℚ :=
  meanOpt ((stationsOn l dict w d).map (fun st => stationDayMean l st d))

/-- Number of dates whose voivodeship mean strictly exceeds the threshold. -/
def overDaysCount (l : List LongRow) (dict : List (String × String))
    (t : ℚ) (w : String) : Nat :=
  ((voivDates l dict w).filter
    (fun d => optGT (voivDayMean l dict w d) t)).length

theorem station_group_mean (l : List LongRow) (dict : List (String × String))
    (w st : String) (d : Date) (hw : stationVoiv dict st = w) :
    meanOpt (((l.map (afRow dict)).filter
        (fun a => decide ((a.1, a.2.1, a.2.2.1) = (w, st, d)))).map
      (fun a => a.2.2.2)) = stationDayMean l st d := by
  rw [List.filter_map, List.map_map]
  have hpred : ((fun a : String × String × Date × Option ℚ =>
      decide ((a.1, a.2.1, a.2.2.1) = (w, st, d))) ∘ afRow dict)
      = fun r => decide (r.station = st) && decide (r.datetime.date = d) := by
    funext r
    simp only [Function.comp_apply, afRow]
    by_cases hst : r.station = st
    · by_cases hd : r.datetime.date = d
      · have hv : rowVoiv dict r = w := by
          rw [rowVoiv, hst, hw]
        simp [Prod.ext_iff, hst, hd, hv]
      · simp [Prod.ext_iff, hd]
    · simp [Prod.ext_iff, hst]
  have hval : ((fun a : String × String × Date × Option ℚ => a.2.2.2) ∘ afRow dict)
      = LongRow.pm25 :=
    funext fun r => rfl
  rw [hpred, hval, stationDayMean]

theorem voiv_group_mean (l : List LongRow) (dict : List (String × String))
    (w : String) (d : Date) :
    meanOpt (((groupedBy
        (fun a : String × String × Date × Option ℚ => (a.1, a.2.1, a.2.2.1))
        (fun g => meanOpt (g.map (fun a => a.2.2.2)))
        (l.map (afRow dict))).filter
          (fun p => decide ((p.1.2.2, p.1.1) = (d, w)))).map Prod.snd)
      = voivDayMean l dict w d := by
  simp only [groupedBy]
  rw [List.filter_map]
  have hp1 : ((fun p : (String × String × Date) × Option ℚ =>
      decide ((p.1.2.2, p.1.1) = (d, w))) ∘
      (fun k => (k, meanOpt ((grp
        (fun a : String × String × Date × Option ℚ => (a.1, a.2.1, a.2.2.1))
        (l.map (afRow dict)) k).map (fun a => a.2.2.2)))))
      = fun k : String × String × Date => decide ((k.2.2, k.1) = (d, w)) :=
    funext fun k => rfl
  rw [hp1]
  simp only [gkeys]
  rw [List.map_map, List.map_map]
  have hk1 : ((fun a : String × String × Date × Option ℚ =>
      (a.1, a.2.1, a.2.2.1)) ∘ afRow dict) = tripRow dict :=
    funext fun r => rfl
  rw [hk1, dedup_filter, List.filter_map]
  have hp2 : ((fun k : String × String × Date =>
      decide ((k.2.2, k.1) = (d, w))) ∘ tripRow dict)
      = fun r => decide (r.datetime.date = d) && decide (rowVoiv dict r = w) := by
    funext r
    simp only [Function.comp_apply, tripRow]
    exact decide_pair_eq r.datetime.date d (rowVoiv dict r) w
  rw [hp2]
  have hmapcon : (l.filter (fun r => decide (r.datetime.date = d) &&
        decide (rowVoiv dict r = w))).map (tripRow dict)
      = ((l.filter (fun r => decide (r.datetime.date = d) &&
        decide (rowVoiv dict r = w))).map LongRow.station).map
          (fun st => ((w, st, d) : String × String × Date)) := by
    have h1 : (l.filter (fun r => decide (r.datetime.date = d) &&
        decide (rowVoiv dict r = w))).map (tripRow dict)
        = (l.filter (fun r => decide (r.datetime.date = d) &&
          decide (rowVoiv dict r = w))).map
            ((fun st => ((w, st, d) : String × String × Date)) ∘ LongRow.station) := by
      apply List.map_congr_left
      intro r hr
      have h2 := (List.mem_filter.mp hr).2
      rw [Bool.and_eq_true, decide_eq_true_eq, decide_eq_true_eq] at h2
      simp [tripRow, h2.1, h2.2]
    exact h1.trans (List.map_map _ _ _).symm
  rw [hmapcon,
    dedup_map_inj (fun st => ((w, st, d) : String × String × Date))
      (fun x y h => congrArg (fun p => p.2.1) h) _,
    List.map_map]
  rw [voivDayMean, stationsOn]
  apply congrArg meanOpt
  apply List.map_congr_left
  intro st hst
  simp only [Function.comp_apply]
  have hw : stationVoiv dict st = w := by
    rcases List.mem_map.mp (List.mem_dedup.mp hst) with ⟨r, hr, he⟩
    have h2 := (List.mem_filter.mp hr).2
    rw [Bool.and_eq_true, decide_eq_true_eq, decide_eq_true_eq] at h2
    rw [← he]
    exact h2.2
  simpa [grp] using station_group_mean l dict w st d hw

theorem gkeys_map {α α2 κ : Type} [DecidableEq κ] (f : α2 → κ) (h : α → α2)
    (l : List α) : gkeys f (l.map h) = gkeys (f ∘ h) l := by
  simp only [gkeys]
  rw [List.map_map]

theorem gkeys_gkeys {α κ κ2 : Type} [DecidableEq κ] [DecidableEq κ2]
    (f : κ → κ2) (g : α → κ) (l : List α) :
    gkeys f (gkeys g l) = gkeys (f ∘ g) l := by
  show gkeys f ((l.map g).dedup) = gkeys (f ∘ g) l
  simp only [gkeys]
  rw [dedup_map_dedup, List.map_map]

theorem gkeys_groupedBy {α β κ κ2 : Type} [DecidableEq κ] [DecidableEq κ2]
    (f : α → κ) (g : List α → β) (l : List α) (f2 : κ × β → κ2) (f2k : κ → κ2)
    (hcomp : (f2 ∘ fun k => (k, g (grp f l k))) = f2k) :
    gkeys f2 (groupedBy f g l) = gkeys f2k (gkeys f l) := by
  show gkeys f2 ((gkeys f l).map fun k => (k, g (grp f l k))) = _
  rw [gkeys_map, hcomp]

theorem filter_gkeys {α κ : Type} [DecidableEq κ] (f : α → κ) (p : κ → Bool)
    (l : List α) :
    (gkeys f l).filter p = gkeys f (l.filter (p ∘ f)) := by
  show ((l.map f).dedup).filter p = ((l.filter (p ∘ f)).map f).dedup
  rw [dedup_filter, List.filter_map]

theorem grp_groupedBy {α β κ κ2 : Type} [DecidableEq κ] [DecidableEq κ2]
    (f : α → κ) (g : List α → β) (l : List α) (f2 : κ × β → κ2) (f2k : κ → κ2)
    (k0 : κ2)
    (hcomp : ((fun p => decide (f2 p = k0)) ∘ fun k => (k, g (grp f l k)))
      = fun k => decide (f2k k = k0)) :
    grp f2 (groupedBy f g l) k0
      = ((gkeys f l).filter (fun k => decide (f2k k = k0))).map
          (fun k => (k, g (grp f l k))) := by
  show ((gkeys f l).map fun k => (k, g (grp f l k))).filter
      (fun p => decide (f2 p = k0)) = _
  rw [List.filter_map, hcomp]

theorem gkeys_pair_const (l2 : List LongRow) (dict : List (String × String))
    (w : String) (hall : ∀ r ∈ l2, rowVoiv dict r = w) :
    gkeys (fun r : LongRow => (r.datetime.date, rowVoiv dict r)) l2
      = (gkeys (fun r : LongRow => r.datetime.date) l2).map
          (fun d2 => ((d2, w) : Date × String)) := by
  show (l2.map fun r => (r.datetime.date, rowVoiv dict r)).dedup
      = ((l2.map fun r => r.datetime.date).dedup).map (fun d2 => (d2, w))
  have h1 : (l2.map fun r : LongRow => (r.datetime.date, rowVoiv dict r))
      = (l2.map fun r : LongRow => r.datetime.date).map
          (fun d2 => ((d2, w) : Date × String)) := by
    have h0 : (l2.map fun r : LongRow => (r.datetime.date, rowVoiv dict r))
        = l2.map ((fun d2 => ((d2, w) : Date × String)) ∘
            fun r : LongRow => r.datetime.date) := by
      apply List.map_congr_left
      intro r hr
      simp [hall r hr]
    exact h0.trans (List.map_map _ _ _).symm
  rw [h1, dedup_map_inj (fun d2 => ((d2, w) : Date × String))
    (fun x y h => congrArg Prod.fst h) _]

theorem wojew_counts_eq (l : List LongRow) (dict : List (String × String))
    (t : ℚ) :
    groupedBy (fun p : (Date × String) × Option ℚ => p.1.2)
      (fun g => (g.filter (fun p => optGT p.2 t)).length)
      (groupedBy (fun p : (String × String × Date) × Option ℚ => (p.1.2.2, p.1.1))
        (fun g => meanOpt (g.map Prod.snd))
        (groupedBy (fun a : String × String × Date × Option ℚ => (a.1, a.2.1, a.2.2.1))
          (fun g => meanOpt (g.map (fun a => a.2.2.2))) (l.map (afRow dict))))
      = (gkeys (rowVoiv dict) l).map
          (fun w => (w, overDaysCount l dict t w)) := by
  have hgk2 : gkeys (fun p : (String × String × Date) × Option ℚ =>
        (p.1.2.2, p.1.1))
      (groupedBy (fun a : String × String × Date × Option ℚ =>
          (a.1, a.2.1, a.2.2.1))
        (fun g => meanOpt (g.map (fun a => a.2.2.2))) (l.map (afRow dict)))
      = gkeys (fun r : LongRow => (r.datetime.date, rowVoiv dict r)) l := by
    rw [gkeys_groupedBy
      (fun a : String × String × Date × Option ℚ => (a.1, a.2.1, a.2.2.1))
      (fun g => meanOpt (g.map (fun a : String × String × Date × Option ℚ =>
        a.2.2.2)))
      (l.map (afRow dict))
      (fun p : (String × String × Date) × Option ℚ => (p.1.2.2, p.1.1))
      (fun k : String × String × Date => (k.2.2, k.1)) (funext fun k => rfl)]
    rw [gkeys_gkeys, gkeys_map]
    rfl
  have hgk3 : gkeys (fun p : (Date × String) × Option ℚ => p.1.2)
      (groupedBy (fun p : (String × String × Date) × Option ℚ => (p.1.2.2, p.1.1))
        (fun g => meanOpt (g.map Prod.snd))
        (groupedBy (fun a : String × String × Date × Option ℚ =>
            (a.1, a.2.1, a.2.2.1))
          (fun g => meanOpt (g.map (fun a => a.2.2.2))) (l.map (afRow dict))))
      = gkeys (rowVoiv dict) l := by
    rw [gkeys_groupedBy
      (fun p : (String × String × Date) × Option ℚ => (p.1.2.2, p.1.1))
      (fun g => meanOpt (g.map Prod.snd))
      (groupedBy (fun a : String × String × Date × Option ℚ =>
          (a.1, a.2.1, a.2.2.1))
        (fun g => meanOpt (g.map (fun a => a.2.2.2))) (l.map (afRow dict)))
      (fun p : (Date × String) × Option ℚ => p.1.2)
      (fun q : Date × String => q.2) (funext fun q => rfl)]
    rw [hgk2, gkeys_gkeys]
    rfl
  show (gkeys (fun p : (Date × String) × Option ℚ => p.1.2)
      (groupedBy (fun p : (String × String × Date) × Option ℚ => (p.1.2.2, p.1.1))
        (fun g => meanOpt (g.map Prod.snd))
        (groupedBy (fun a : String × String × Date × Option ℚ =>
            (a.1, a.2.1, a.2.2.1))
          (fun g => meanOpt (g.map (fun a => a.2.2.2))) (l.map (afRow dict))))).map
      (fun w => (w, ((grp (fun p : (Date × String) × Option ℚ => p.1.2)
        (groupedBy (fun p : (String × String × Date) × Option ℚ => (p.1.2.2, p.1.1))
          (fun g => meanOpt (g.map Prod.snd))
          (groupedBy (fun a : String × String × Date × Option ℚ =>
              (a.1, a.2.1, a.2.2.1))
            (fun g => meanOpt (g.map (fun a => a.2.2.2))) (l.map (afRow dict))))
        w).filter (fun p => optGT p.2 t)).length)) = _
  rw [hgk3]
  apply List.map_congr_left
  intro w hw
  refine congrArg (Prod.mk w) ?_
  have hlw : ∀ r ∈ l.filter (fun r => decide (rowVoiv dict r = w)),
      rowVoiv dict r = w := by
    intro r hr
    have h2 := (List.mem_filter.mp hr).2
    rwa [decide_eq_true_eq] at h2
  rw [grp_groupedBy
    (fun p : (String × String × Date) × Option ℚ => (p.1.2.2, p.1.1))
    (fun g => meanOpt (g.map Prod.snd))
    (groupedBy (fun a : String × String × Date × Option ℚ =>
        (a.1, a.2.1, a.2.2.1))
      (fun g => meanOpt (g.map (fun a => a.2.2.2))) (l.map (afRow dict)))
    (fun p : (Date × String) × Option ℚ => p.1.2)
    (fun q : Date × String => q.2) w (funext fun q => rfl)]
  rw [hgk2, filter_gkeys]
  rw [show ((fun q : Date × String => decide (q.2 = w)) ∘
      (fun r : LongRow => (r.datetime.date, rowVoiv dict r)))
      = fun r : LongRow => decide (rowVoiv dict r = w) from funext fun r => rfl]
  rw [gkeys_pair_const _ dict w hlw]
  rw [List.map_map, List.filter_map, List.length_map]
  simp only [overDaysCount, voivDates]
  show (List.filter _ (gkeys (fun r : LongRow => r.datetime.date)
      (l.filter (fun r => decide (rowVoiv dict r = w))))).length = _
  apply congrArg List.length
  apply List.filter_congr
  intro d2 hd2
  simp only [Function.comp_apply]
  exact congrArg (fun o => optGT o t)
    (by simpa [grp] using voiv_group_mean l dict w d2)

instance : IsTotal (String × Nat) descCnt :=
  ⟨fun a b => Nat.le_total b.2 a.2⟩

instance : IsTrans (String × Nat) descCnt :=
  ⟨fun _ _ _ hab hbc => le_trans hbc hab⟩

/-- C5: when every two-letter station code is a key of the dictionary,
`wojew_over_treshold` succeeds with one (voivodeship, count) entry per
voivodeship occurring in the data, the count being the number of calendar
dates whose voivodeship mean — the mean over the voivodeship stations of
each station's daily mean — strictly exceeds the threshold, and the output
is sorted by count in descending order. -/
theorem wojew_over_treshold_correct (l : List LongRow)
    (dict : List (String × String)) (t : ℚ)
    (hall : ∀ r ∈ l, (dictGet dict (code2 r.station)).isSome = true) :
    ∃ out, wojew_over_treshold l dict t = Except.ok out ∧
      out.Perm ((gkeys (rowVoiv dict) l).map
        (fun w => (w, overDaysCount l dict t w))) ∧
      out.Pairwise (fun a b : String × Nat => b.2 ≤ a.2) := by
  have hfind : ((l.map (fun r => code2 r.station)).find?
      (fun c => (dictGet dict c).isNone)) = none := by
    rw [List.find?_eq_none]
    intro c hc
    rcases List.mem_map.mp hc with ⟨r, hr, rfl⟩
    rcases Option.isSome_iff_exists.mp (hall r hr) with ⟨v, hv⟩
    simp [hv]
  have haug : l.filterMap (fun r =>
      (dictGet dict (code2 r.station)).map
        (fun w => (w, r.station, r.datetime.date, r.pm25)))
      = l.map (afRow dict) := by
    apply filterMap_eq_map_of
    intro r hr
    rcases Option.isSome_iff_exists.mp (hall r hr) with ⟨v, hv⟩
    simp [afRow, rowVoiv, stationVoiv, hv]
  refine ⟨List.insertionSort descCnt
    (groupedBy (fun p : (Date × String) × Option ℚ => p.1.2)
      (fun g => (g.filter (fun p => optGT p.2 t)).length)
      (groupedBy (fun p : (String × String × Date) × Option ℚ =>
          (p.1.2.2, p.1.1))
        (fun g => meanOpt (g.map Prod.snd))
        (groupedBy (fun a : String × String × Date × Option ℚ =>
            (a.1, a.2.1, a.2.2.1))
          (fun g => meanOpt (g.map (fun a => a.2.2.2)))
          (l.map (afRow dict))))), ?_, ?_, ?_⟩
  · simp only [wojew_over_treshold, hfind, haug]
  · rw [wojew_counts_eq l dict t]
    exact List.perm_insertionSort descCnt _
  · exact List.Pairwise.imp (fun h => h)
      (List.sorted_insertionSort descCnt _)

/-- Witness for `wojew_over_treshold_correct` on the concrete long frame. -/
theorem wojew_over_treshold_witness :
    ∃ out, wojew_over_treshold exLong exDict 15 = Except.ok out ∧
      out.Perm ((gkeys (rowVoiv exDict) exLong).map
        (fun w => (w, overDaysCount exLong exDict 15 w))) ∧
      out.Pairwise (fun a b : String × Nat => b.2 ≤ a.2) :=
  wojew_over_treshold_correct exLong exDict 15 (by decide)

end PM25
